import Mathlib

/-!
Verification of the MIRG connection-routing control plane
(instance registry, session store, load balancer, connection router)
and of the rules-generator backend (vector search, ZIP packaging).

The registry/session/router subsystem ships only its integration test
(`tests/integration/registry.integration.test.ts`); the implementation
module `backend/src/registry` it imports is not present.  Those
components are therefore modelled from the specification (spec.md
sections 3, 4.1-4.3, 4.5, 7), constrained by the behaviour the
integration test exercises.  The vector-search service
(`backend/dist/services/weaviate.js`) and the rules controller
(`backend/dist/controllers/rulesController.js`) are present and are
embedded from that source directly.
-/

namespace Mirg

/-! ## Data model (spec.md section 3) -/

/-- Modelled from the spec: Instance.status, the five lifecycle states of a
managed backend worker (`backend/src/registry` is absent from the sources). -/
inductive Status where
  | provisioning
  | active
  | draining
  | error
  | removed
deriving DecidableEq, Repr

/-- Modelled from the spec: creation-time tags on an Instance or the claims
consumed from a bearer token (userId required for claims, organizationId
optional). -/
structure Metadata where
  userId : Option String := none
  organizationId : Option String := none
deriving DecidableEq, Repr

/-- Modelled from the spec: an Instance record owned by the registry.
Connections is an integer count (never negative is an invariant to prove,
not a typing assumption), createdAt a millisecond timestamp. -/
structure Instance where
  id : Nat
  status : Status
  metadata : Metadata
  connections : Int
  createdAt : Nat
deriving DecidableEq, Repr

/-- Modelled from the spec: the tagged load-balancing strategy variant. -/
inductive Strategy where
  | leastConnections
  | roundRobin
deriving DecidableEq, Repr

/-- Modelled from the spec: the error taxonomy of section 7 relevant to the
registry and load balancer. -/
inductive RegErr where
  | CapacityExceeded
  | NoAvailableInstance
deriving DecidableEq, Repr

/-- Modelled from the spec: registry construction config,
`registry:{maxInstances, maxConnectionsPerInstance}`. -/
structure RegistryConfig where
  maxInstances : Nat
  maxConnectionsPerInstance : Int
deriving DecidableEq, Repr

/-- Modelled from the spec: the mutable registry state — the instance pool in
creation order, the id allocator, the process-wide round-robin cursor and the
current strategy. -/
structure RegistryState where
  instances : List Instance
  nextId : Nat
  rrCursor : Nat
  strategy : Strategy
deriving DecidableEq, Repr

/-- Modelled from the spec: a fresh registry (empty pool, cursor 0,
default strategy leastConnections). -/
def emptyRegistry : RegistryState :=
  { instances := [], nextId := 0, rrCursor := 0, strategy := .leastConnections }

/-! ## InstanceRegistry (spec.md section 4.1) -/

/-- Modelled from the spec: `createInstance(metadata)` returns a new Instance
with status active and connections 0, or fails CapacityExceeded when
count == maxInstances. -/
def createInstance (cfg : RegistryConfig) (s : RegistryState) (now : Nat)
    (md : Metadata) : Except RegErr (Instance × RegistryState) :=
  if s.instances.length = cfg.maxInstances then
    .error .CapacityExceeded
  else
    let inst : Instance :=
      { id := s.nextId, status := .active, metadata := md, connections := 0,
        createdAt := now }
    .ok (inst, { s with instances := s.instances ++ [inst], nextId := s.nextId + 1 })

/-- Modelled from the spec: `getInstances()`, a read-only snapshot in creation
order. -/
def getInstances (s : RegistryState) : List Instance :=
  s.instances

/-- Modelled from the spec: `removeInstance(id)` detaches the instance;
no-op if unknown. -/
def removeInstance (s : RegistryState) (iid : Nat) : RegistryState :=
  { s with instances := s.instances.filter (fun i => ¬ i.id = iid) }

/-- Modelled from the spec: `markError(id)` sets status to error; the instance
stays in the pool but is excluded from routing. -/
def markError (s : RegistryState) (iid : Nat) : RegistryState :=
  { s with instances :=
      s.instances.map (fun i => if i.id = iid then { i with status := .error } else i) }

/-- Modelled from the spec: switching strategy takes effect immediately for
future calls. -/
def setLoadBalancingStrategy (s : RegistryState) (st : Strategy) : RegistryState :=
  { s with strategy := st }

/-! ## LoadBalancer (spec.md section 4.3) -/

/-- Modelled from the spec: an instance is eligible for routing unless its
status is error or removed or it is at capacity
(connections == maxConnectionsPerInstance). -/
def isEligible (cfg : RegistryConfig) (i : Instance) : Bool :=
  !(i.status == .error) && !(i.status == .removed) &&
    !(i.connections == cfg.maxConnectionsPerInstance)

/-- Modelled from the spec: the leastConnections scan — keep the candidate
with strictly fewer connections, break connection ties by strictly earlier
createdAt, otherwise keep the earlier-listed candidate (deterministic). -/
def leastConn (best : Instance) : List Instance → Instance
  | [] => best
  | i :: rest =>
      if i.connections < best.connections ∨
          (i.connections = best.connections ∧ i.createdAt < best.createdAt) then
        leastConn i rest
      else
        leastConn best rest

/-- Modelled from the spec: `selectInstance(eligible, strategy, context)`
returns an instance and the updated round-robin cursor, or fails
NoAvailableInstance when no eligible instance remains.  The round-robin
cursor indexes the eligible list modulo its length and advances by one
per call. -/
def selectInstance (eligible : List Instance) (strategy : Strategy)
    (cursor : Nat) : Except RegErr (Instance × Nat) :=
  match eligible with
  | [] => .error .NoAvailableInstance
  | i :: rest =>
      match strategy with
      | .leastConnections => .ok (leastConn i rest, cursor)
      | .roundRobin =>
          let n := rest.length + 1
          .ok ((i :: rest).get ⟨cursor % n, Nat.mod_lt _ (Nat.succ_pos _)⟩,
            (cursor + 1) % n)

/-- Modelled from the spec: `getInstanceForConnection` filters the pool down
to eligible instances, delegates to `selectInstance` under the current
strategy, and persists the advanced cursor in the registry state. -/
def getInstanceForConnection (cfg : RegistryConfig) (s : RegistryState) :
    Except RegErr (Instance × RegistryState) :=
  match selectInstance (s.instances.filter (isEligible cfg)) s.strategy s.rrCursor with
  | .error e => .error e
  | .ok (i, c) => .ok (i, { s with rrCursor := c })

/-! ## SessionStore (spec.md section 4.2)

The integration test `should track user sessions` calls
`getOrCreateSession({userId:'user1'})` twice and requires
`getUserSessions('user1')` to then hold two sessions, so session creation is
unconditional: each call mints a fresh session (the spec's reuse sentence is
settled against this behaviour below). -/

/-- Modelled from the spec: a Session record — identity, optional
organization, live connection ids, the sticky-instance back-reference
(metadata.stickyInstance), creation and expiry timestamps. -/
structure Session where
  id : Nat
  userId : String
  organizationId : Option String
  connections : List Nat
  stickyInstance : Option Nat
  createdAt : Nat
  expiresAt : Nat
deriving DecidableEq, Repr

/-- Modelled from the spec: validated bearer-token claims,
`{userId, organizationId}`. -/
structure Claims where
  userId : String
  organizationId : Option String := none
deriving DecidableEq, Repr

/-- Modelled from the spec: the session store — sessions keyed by id plus the
id allocator. -/
structure SessionStore where
  sessions : List Session
  nextSessionId : Nat
deriving DecidableEq, Repr

/-- Modelled from the spec: a fresh, empty session store. -/
def emptyStore : SessionStore :=
  { sessions := [], nextSessionId := 0 }

/-- Modelled from the spec: `getOrCreateSession(claims)` with
`expiresAt = now + ttl`.  Creation is unconditional — a fresh session per
call — as the integration test `should track user sessions` requires
(two identical calls must yield two concurrent sessions for that user). -/
def getOrCreateSession (ttl : Nat) (st : SessionStore) (now : Nat)
    (c : Claims) : Session × SessionStore :=
  let s : Session :=
    { id := st.nextSessionId, userId := c.userId,
      organizationId := c.organizationId, connections := [],
      stickyInstance := none, createdAt := now, expiresAt := now + ttl }
  (s, { sessions := st.sessions ++ [s], nextSessionId := st.nextSessionId + 1 })

/-- Modelled from the spec: an instance id refers to a live instance when an
instance with that id is in the pool with status neither error nor removed. -/
def liveInstance (instances : List Instance) (iid : Nat) : Bool :=
  instances.any (fun i => i.id == iid && !(i.status == .error) && !(i.status == .removed))

/-- Modelled from the spec: `getSession(id)` — none if missing; an expired
session (expiresAt strictly before now) is treated as absent and lazily
purged; a sticky reference to an instance that is no longer live is lazily
cleared before the session is returned. -/
def getSession (st : SessionStore) (instances : List Instance) (now : Nat)
    (sid : Nat) : Option Session × SessionStore :=
  match st.sessions.find? (fun s => s.id == sid) with
  | none => (none, st)
  | some s =>
      if s.expiresAt < now then
        (none, { st with sessions := st.sessions.filter (fun t => ¬ t.id = sid) })
      else
        match s.stickyInstance with
        | some iid =>
            if liveInstance instances iid then (some s, st)
            else
              let s' := { s with stickyInstance := none }
              (some s',
                { st with sessions :=
                    st.sessions.map (fun t => if t.id = sid then s' else t) })
        | none => (some s, st)

/-- Modelled from the spec: `setStickyInstance(sessionId, instanceId)`, an
idempotent affinity record on the named session. -/
def setStickyInstance (st : SessionStore) (sid iid : Nat) : SessionStore :=
  { st with sessions :=
      st.sessions.map (fun s =>
        if s.id = sid then { s with stickyInstance := some iid } else s) }

/-- Modelled from the spec: `getUserSessions(userId)` — all live (unexpired)
sessions for that user. -/
def getUserSessions (st : SessionStore) (now : Nat) (uid : String) : List Session :=
  st.sessions.filter (fun s => s.userId == uid && !(s.expiresAt < now))

/-! ## ConnectionRouter connection accounting (spec.md sections 4.5, 7)

The router's live-socket map pairs each connection id with the instance it
was routed to.  Routing increments the chosen instance's connection counter;
closing a connection decrements it and removes the map entry, and the
decrement is guarded so that duplicate close events are no-ops. -/

/-- Modelled from the spec: the router-facing system state — the registry, the
live-connection map `connectionId ↦ instanceId`, and the connection-id
allocator. -/
structure RouterState where
  reg : RegistryState
  liveConns : List (Nat × Nat)
  nextConnId : Nat
deriving DecidableEq, Repr

/-- Modelled from the spec: the initial router state over an empty registry. -/
def emptyRouter : RouterState :=
  { reg := emptyRegistry, liveConns := [], nextConnId := 0 }

/-- Modelled from the spec: bump an instance's connection counter when a
connection is routed to it. -/
def incConnections (s : RegistryState) (iid : Nat) : RegistryState :=
  { s with instances :=
      s.instances.map (fun i =>
        if i.id = iid then { i with connections := i.connections + 1 } else i) }

/-- Modelled from the spec: drop an instance's connection counter when a
connection routed to it closes. -/
def decConnections (s : RegistryState) (iid : Nat) : RegistryState :=
  { s with instances :=
      s.instances.map (fun i =>
        if i.id = iid then { i with connections := i.connections - 1 } else i) }

/-- Modelled from the spec: the registry and router mutations reachable from
the outside — instance creation, removal, health failure, routing a new
connection, and closing a connection. -/
inductive RouterOp where
  | create (now : Nat) (md : Metadata)
  | remove (iid : Nat)
  | fail (iid : Nat)
  | route
  | close (cid : Nat)

/-- Modelled from the spec: one router/registry transition.  Routing allocates
a fresh connection id, increments the chosen instance and records the map
entry; closing looks the connection up in the live map, and only when it is
present decrements that instance and deletes the entry (so a duplicate close
is a no-op). -/
def routerStep (cfg : RegistryConfig) (op : RouterOp) (s : RouterState) : RouterState :=
  match op with
  | .create now md =>
      match createInstance cfg s.reg now md with
      | .ok (_, r) => { s with reg := r }
      | .error _ => s
  | .remove iid => { s with reg := removeInstance s.reg iid }
  | .fail iid => { s with reg := markError s.reg iid }
  | .route =>
      match getInstanceForConnection cfg s.reg with
      | .ok (i, r) =>
          { reg := incConnections r i.id,
            liveConns := s.liveConns ++ [(s.nextConnId, i.id)],
            nextConnId := s.nextConnId + 1 }
      | .error _ => s
  | .close cid =>
      match s.liveConns.find? (fun c => c.1 == cid) with
      | some c =>
          { s with
            reg := decConnections s.reg c.2
            liveConns := s.liveConns.filter (fun d => ¬ d.1 = cid) }
      | none => s

/-- Modelled from the spec: run a sequence of router operations from the
initial state. -/
def runRouter (cfg : RegistryConfig) : List RouterOp → RouterState
  | [] => emptyRouter
  | op :: ops => routerStep cfg op (runRouter cfg ops)

/-- Modelled from the spec: the number of live connections currently routed
to a given instance. -/
def countConns (l : List (Nat × Nat)) (iid : Nat) : Nat :=
  l.countP (fun c => c.2 == iid)

/-! ## Rules-generator backend: vector search
(`backend/dist/services/weaviate.js`, `backend/dist/controllers/rulesController.js`) -/

/-- A document in the Weaviate `Rules` class: its text content and the four
metadata keys the store is configured with. -/
structure RuleDoc where
  pageContent : String
  ide : String
  framework : String
  category : String
  filePath : String
deriving DecidableEq, Repr

/-- The metadata filter `searchRules` builds from the optional ide /
framework / category fields of the request body. -/
structure SearchFilter where
  ide : Option String := none
  framework : Option String := none
  category : Option String := none
deriving DecidableEq, Repr

/-- A document matches the filter when every present filter field equals the
corresponding metadata field. -/
def matchesFilter (f : SearchFilter) (d : RuleDoc) : Bool :=
  (match f.ide with | some v => d.ide == v | none => true) &&
  (match f.framework with | some v => d.framework == v | none => true) &&
  (match f.category with | some v => d.category == v | none => true)

/-- The external LangChain `vectorStore.similaritySearch(query, k, filter)`
call, modelled over a store whose documents are held in relevance order for
the query: the filtered documents, truncated to the first k.  Only the
yields-at-most-k contract and the filter semantics of the library call are
relied upon. -/
def similaritySearch (docs : List RuleDoc) (_query : String) (k : Nat)
    (f : SearchFilter) : List RuleDoc :=
  (docs.filter (matchesFilter f)).take k

/-- The module-level `vectorStore` of weaviate.js: `setupWeaviate` may never
have run (uninitialized), or the store is ready, or the underlying search
throws (the catch branch of `searchSimilarRules`). -/
inductive VectorStoreState where
  | uninitialized
  | ready (docs : List RuleDoc)
  | failing (msg : String)
deriving DecidableEq, Repr

/-- One search hit as `searchSimilarRules` shapes it: the page content, the
metadata, and `metadata.score` — which is not among the configured metadata
keys, hence always absent. -/
structure SearchResult where
  content : String
  ide : String
  framework : String
  category : String
  filePath : String
  score : Option Nat
deriving DecidableEq, Repr

/-- The result mapping `doc => ({content: doc.pageContent, metadata: doc.metadata,
score: doc.metadata.score})` of weaviate.js. -/
def docToResult (d : RuleDoc) : SearchResult :=
  { content := d.pageContent, ide := d.ide, framework := d.framework,
    category := d.category, filePath := d.filePath, score := none }

/-- `searchSimilarRules(query, filter)` of weaviate.js: returns `[]` when the
vector store is uninitialized, calls `similaritySearch(query, 5, filter)` and
maps the documents into results, and returns `[]` from the catch branch when
the underlying search throws. -/
def searchSimilarRules (vs : VectorStoreState) (query : String)
    (f : SearchFilter) : List SearchResult :=
  match vs with
  | .uninitialized => []
  | .failing _ => []
  | .ready docs => (similaritySearch docs query 5 f).map docToResult

/-- The body of a POST /api/rules/search request:
`{query, ide, framework, category}`. -/
structure SearchRequest where
  query : String
  ide : Option String := none
  framework : Option String := none
  category : Option String := none
deriving DecidableEq, Repr

/-- The JSON reply of `searchRules` in rulesController.js:
`{query, filter, results, count: results.length}`. -/
structure SearchResponse where
  query : String
  filter : SearchFilter
  results : List SearchResult
  count : Nat
deriving DecidableEq, Repr

/-- `searchRules(req, res)` of rulesController.js: builds the metadata filter
from the present request fields, runs `searchSimilarRules`, and replies with
the results and their count. -/
def searchRules (vs : VectorStoreState) (r : SearchRequest) : SearchResponse :=
  let f : SearchFilter :=
    { ide := r.ide, framework := r.framework, category := r.category }
  let results := searchSimilarRules vs r.query f
  { query := r.query, filter := f, results := results, count := results.length }

/-! ## Rules-generator backend: package generation
(`backend/dist/controllers/rulesController.js`) -/

/-- The body of a POST generate request:
`{ide, projectType, tokenBudget, framework}`.  `ide` is the list of selected
IDEs; `tokenBudget` is rendered into the README as text. -/
structure PackageRequest where
  ide : List String
  projectType : String
  tokenBudget : Nat
  framework : Option String := none
deriving DecidableEq, Repr

/-- An entry of the produced ZIP archive: a whole directory added under a
destination prefix (`archive.directory`), or a single generated file
(`archive.append` with a name). -/
inductive ZipEntry where
  | dir (srcPath destPath : String)
  | file (content entryName : String)
deriving DecidableEq, Repr

/-- `generateReadme(config)` of rulesController.js: the README.md text,
line-joined, with the fenced code block built from char code 96. -/
def generateReadme (nowIso : String) (cfg : PackageRequest) : String :=
  let codeBlock := "\x60\x60\x60"
  String.intercalate "\n"
    [ "# Multi-IDE Rules Package",
      "",
      "Generated on: " ++ nowIso,
      "",
      "## Configuration:",
      "- IDE: " ++ String.intercalate "," cfg.ide,
      "- Project Type: " ++ cfg.projectType,
      "- Token Budget: " ++ toString cfg.tokenBudget,
      "- Framework: " ++ (match cfg.framework with | some f => f | none => "None specified"),
      "",
      "## Usage:",
      "See INSTALL.md for installation instructions.",
      "",
      "## Claude Code CLI Integration:",
      codeBlock ++ "bash",
      "claude-code --context .cursor/rules/*.mdc --memory-file .taskmaster/memory.md",
      codeBlock ]

/-- `generateInstallationInstructions(config)` of rulesController.js: the
INSTALL.md text, line-joined. -/
def generateInstallationInstructions (_cfg : PackageRequest) : String :=
  String.intercalate "\n"
    [ "# Installation Instructions",
      "",
      "## For Cursor:",
      "1. Copy .cursor/ folder to your project root",
      "2. Restart Cursor IDE",
      "",
      "## For CLINE:",
      "1. Copy .clinerules/ folder to your project root",
      "2. Configure CLINE to use these rules",
      "",
      "## For Taskmaster-AI:",
      "1. Copy .taskmaster/ folder to your project root",
      "2. Run taskmaster init to integrate",
      "",
      "## Troubleshooting:",
      "- Ensure file paths are correct for your system",
      "- Check IDE-specific documentation for rule loading" ]

/-- `generateRulesPackage(req, res)` of rulesController.js, as the list of
archive entries of the ZIP it streams: IDE template directories for each of
cursor/cline/roo present in the selection, the framework directory when a
framework is given and its path exists (`fs.existsSync`, passed in as
`frameworkExists`), then always the appended README.md and INSTALL.md
entries before `archive.finalize()`. -/
def generateRulesPackage (nowIso : String) (frameworkExists : String → Bool)
    (req : PackageRequest) : List ZipEntry :=
  (if req.ide.contains "cursor" then
    [ZipEntry.dir "knowledge-base/04-templates/cursor-templates/" ".cursor/rules/"]
  else []) ++
  (if req.ide.contains "cline" then
    [ZipEntry.dir "knowledge-base/04-templates/cline-templates/" ".clinerules/"]
  else []) ++
  (if req.ide.contains "roo" then
    [ZipEntry.dir "knowledge-base/04-templates/roo-templates/" ".roo/"]
  else []) ++
  (match req.framework with
    | some fw =>
        if frameworkExists ("knowledge-base/02-tier2-specialized/" ++ fw) then
          [ZipEntry.dir ("knowledge-base/02-tier2-specialized/" ++ fw)
            ("framework-rules/" ++ fw ++ "/")]
        else []
    | none => []) ++
  [ZipEntry.file (generateReadme nowIso req) "README.md",
   ZipEntry.file (generateInstallationInstructions req) "INSTALL.md"]

/-! ## Load-balancer lemmas -/

theorem leastConn_mem (l : List Instance) :
    ∀ best, leastConn best l ∈ best :: l := by
  induction l with
  | nil => intro best; simp [leastConn]
  | cons i rest ih =>
      intro best
      unfold leastConn
      split
      · have := ih i
        simp only [List.mem_cons] at this ⊢
        tauto
      · have := ih best
        simp only [List.mem_cons] at this ⊢
        tauto

theorem leastConn_min (l : List Instance) :
    ∀ best, ∀ j ∈ best :: l, (leastConn best l).connections ≤ j.connections := by
  induction l with
  | nil =>
      intro best j hj
      simp only [List.mem_singleton] at hj
      subst hj
      simp [leastConn]
  | cons i rest ih =>
      intro best j hj
      simp only [List.mem_cons] at hj
      unfold leastConn
      split
      · rename_i hcond
        have hle : (leastConn i rest).connections ≤ i.connections :=
          ih i i (by simp)
        rcases hj with hj | hj | hj
        · subst hj; omega
        · subst hj; exact hle
        · exact ih i j (by simp [hj])
      · rename_i hcond
        push_neg at hcond
        have hle : (leastConn best rest).connections ≤ best.connections :=
          ih best best (by simp)
        rcases hj with hj | hj | hj
        · subst hj; exact hle
        · subst hj; omega
        · exact ih best j (by simp [hj])

theorem leastConn_tie (l : List Instance) :
    ∀ best, ∀ j ∈ best :: l, j.connections = (leastConn best l).connections →
      (leastConn best l).createdAt ≤ j.createdAt := by
  induction l with
  | nil =>
      intro best j hj _
      simp only [List.mem_singleton] at hj
      subst hj
      simp [leastConn]
  | cons i rest ih =>
      intro best j hj htie
      simp only [List.mem_cons] at hj
      rw [leastConn] at htie ⊢
      by_cases hcond : i.connections < best.connections ∨
          (i.connections = best.connections ∧ i.createdAt < best.createdAt)
      · -- the new head i displaced best
        rw [if_pos hcond] at htie ⊢
        have hminI : (leastConn i rest).connections ≤ i.connections :=
          leastConn_min rest i i (by simp)
        rcases hj with hj | hj | hj
        · subst hj
          rcases hcond with h | h
          · omega
          · calc (leastConn i rest).createdAt
                ≤ i.createdAt := ih i i (by simp) (by omega)
              _ ≤ j.createdAt := le_of_lt (by omega)
        · rw [hj] at htie ⊢; exact ih i i (by simp) htie
        · exact ih i j (by simp [hj]) htie
      · -- best retained against the new head i
        rw [if_neg hcond] at htie ⊢
        push_neg at hcond
        have hminB : (leastConn best rest).connections ≤ best.connections :=
          leastConn_min rest best best (by simp)
        rcases hj with hj | hj | hj
        · rw [hj] at htie ⊢; exact ih best best (by simp) htie
        · subst hj
          have h2 : j.connections = best.connections := by omega
          have h3 : best.createdAt ≤ j.createdAt := hcond.2 h2
          have h4 : best.connections = (leastConn best rest).connections := by omega
          calc (leastConn best rest).createdAt
              ≤ best.createdAt := ih best best (by simp) h4
            _ ≤ j.createdAt := h3
        · exact ih best j (by simp [hj]) htie

theorem selectInstance_ok_mem {eligible : List Instance} {st : Strategy}
    {cur : Nat} {i : Instance} {c : Nat}
    (h : selectInstance eligible st cur = .ok (i, c)) : i ∈ eligible := by
  match eligible, h with
  | i0 :: rest, h =>
      cases st with
      | leastConnections =>
          simp only [selectInstance, Except.ok.injEq, Prod.mk.injEq] at h
          rw [← h.1]
          exact leastConn_mem rest i0
      | roundRobin =>
          simp only [selectInstance, Except.ok.injEq, Prod.mk.injEq] at h
          rw [← h.1]
          exact List.get_mem _ _ _

theorem getInstanceForConnection_ok {cfg : RegistryConfig} {s : RegistryState}
    {i : Instance} {s' : RegistryState}
    (h : getInstanceForConnection cfg s = .ok (i, s')) :
    i ∈ s.instances ∧ isEligible cfg i = true ∧
      s'.instances = s.instances ∧ s'.nextId = s.nextId := by
  unfold getInstanceForConnection at h
  split at h
  · simp at h
  · rename_i i0 c0 hsel
    simp only [Except.ok.injEq, Prod.mk.injEq] at h
    obtain ⟨h1, h2⟩ := h
    subst h1
    subst h2
    have hmem := selectInstance_ok_mem hsel
    have := List.mem_filter.mp hmem
    exact ⟨this.1, this.2, rfl, rfl⟩
/-- C2: instance selection for a new connection never returns an instance
with status error or removed (nor one at capacity), and once error, removed
and at-capacity instances are excluded and none remain it fails with
NoAvailableInstance instead of returning one. -/
theorem c2_selection_excludes_error_removed (cfg : RegistryConfig)
    (s : RegistryState) :
    (∀ i s', getInstanceForConnection cfg s = .ok (i, s') →
      i ∈ s.instances ∧ ¬ i.status = .error ∧ ¬ i.status = .removed ∧
        ¬ i.connections = cfg.maxConnectionsPerInstance) ∧
    (s.instances.filter (isEligible cfg) = [] →
      getInstanceForConnection cfg s = .error .NoAvailableInstance) := by
  constructor
  · intro i s' h
    obtain ⟨hmem, helig, -, -⟩ := getInstanceForConnection_ok h
    unfold isEligible at helig
    simp only [Bool.and_eq_true, Bool.not_eq_true', beq_eq_false_iff_ne, ne_eq] at helig
    exact ⟨hmem, helig.1.1, helig.1.2, helig.2⟩
  · intro hempty
    unfold getInstanceForConnection
    rw [hempty]
    rfl

/-- C2 witness: with one errored instance and one active instance the active
one is selected, and with only an errored instance selection fails with
NoAvailableInstance. -/
theorem c2_selection_excludes_error_removed_witness :
    ((⟨1, Status.active, ⟨none, none⟩, 0, 200⟩ : Instance) ∈
        (⟨[⟨0, .error, ⟨none, none⟩, 0, 100⟩, ⟨1, .active, ⟨none, none⟩, 0, 200⟩],
          2, 0, .leastConnections⟩ : RegistryState).instances ∧
      ¬ Status.active = .error ∧ ¬ Status.active = .removed ∧
        ¬ (0 : Int) = (10 : Int)) ∧
    getInstanceForConnection ⟨5, 10⟩
        ⟨[⟨0, .error, ⟨none, none⟩, 0, 100⟩], 1, 0, .leastConnections⟩ =
      .error .NoAvailableInstance := by
  constructor
  · exact (c2_selection_excludes_error_removed ⟨5, 10⟩
      ⟨[⟨0, .error, ⟨none, none⟩, 0, 100⟩, ⟨1, .active, ⟨none, none⟩, 0, 200⟩],
        2, 0, .leastConnections⟩).1
      ⟨1, Status.active, ⟨none, none⟩, 0, 200⟩ _ rfl
  · exact (c2_selection_excludes_error_removed ⟨5, 10⟩
      ⟨[⟨0, .error, ⟨none, none⟩, 0, 100⟩], 1, 0, .leastConnections⟩).2 (by decide)

/-- C3: under the leastConnections strategy, selection from a non-empty
eligible list returns (deterministically, as a function) an instance of the
list with the fewest connections, ties broken by earliest createdAt. -/
theorem c3_least_connections (i0 : Instance) (rest : List Instance) (cur : Nat) :
    ∃ r, selectInstance (i0 :: rest) .leastConnections cur = .ok (r, cur) ∧
      r ∈ i0 :: rest ∧
      (∀ j ∈ i0 :: rest, r.connections ≤ j.connections) ∧
      (∀ j ∈ i0 :: rest, j.connections = r.connections → r.createdAt ≤ j.createdAt) := by
  refine ⟨leastConn i0 rest, rfl, leastConn_mem rest i0, leastConn_min rest i0,
    leastConn_tie rest i0⟩

/-- C3 witness: for two instances with connection counts [5, 2], selection
returns the one with 2 connections. -/
theorem c3_least_connections_witness :
    (∃ r, selectInstance
        [⟨0, Status.active, ⟨none, none⟩, 5, 100⟩,
         ⟨1, Status.active, ⟨none, none⟩, 2, 200⟩] .leastConnections 0 = .ok (r, 0) ∧
      r ∈ [(⟨0, Status.active, ⟨none, none⟩, 5, 100⟩ : Instance),
           ⟨1, Status.active, ⟨none, none⟩, 2, 200⟩] ∧
      (∀ j ∈ [(⟨0, Status.active, ⟨none, none⟩, 5, 100⟩ : Instance),
              ⟨1, Status.active, ⟨none, none⟩, 2, 200⟩],
        r.connections ≤ j.connections) ∧
      (∀ j ∈ [(⟨0, Status.active, ⟨none, none⟩, 5, 100⟩ : Instance),
              ⟨1, Status.active, ⟨none, none⟩, 2, 200⟩],
        j.connections = r.connections → r.createdAt ≤ j.createdAt)) ∧
    selectInstance
        [⟨0, Status.active, ⟨none, none⟩, 5, 100⟩,
         ⟨1, Status.active, ⟨none, none⟩, 2, 200⟩] .leastConnections 0 =
      .ok (⟨1, Status.active, ⟨none, none⟩, 2, 200⟩, 0) :=
  ⟨c3_least_connections ⟨0, Status.active, ⟨none, none⟩, 5, 100⟩
      [⟨1, Status.active, ⟨none, none⟩, 2, 200⟩] 0,
    by rfl⟩

/-- Modelled from the spec: the trace of instances handed out by a run of
consecutive `getInstanceForConnection` calls, each call continuing from the
state the previous one returned. -/
def selections (cfg : RegistryConfig) : Nat → RegistryState → List Instance
  | 0, _ => []
  | k + 1, s =>
      match getInstanceForConnection cfg s with
      | .ok (i, s') => i :: selections cfg k s'
      | .error _ => []

/-- C4: under the roundRobin strategy the process-wide cursor advances
modulo the live-instance count on each selection, persists in the returned
state, and the pool itself is untouched; with exactly two live instances A
and B in creation order and cursor 0, four consecutive selections yield
A, B, A, B. -/
theorem c4_round_robin (cfg : RegistryConfig) (a b : Instance) (nid : Nat)
    (ha : isEligible cfg a = true) (hb : isEligible cfg b = true) :
    (∀ s i s', s.strategy = .roundRobin → getInstanceForConnection cfg s = .ok (i, s') →
      s'.rrCursor = (s.rrCursor + 1) % (s.instances.filter (isEligible cfg)).length ∧
      s'.instances = s.instances ∧ s'.strategy = .roundRobin) ∧
    selections cfg 4 ⟨[a, b], nid, 0, .roundRobin⟩ = [a, b, a, b] := by
  constructor
  · intro s i s' hstrat h
    unfold getInstanceForConnection at h
    split at h
    · simp at h
    · rename_i i0 c0 hsel
      simp only [Except.ok.injEq, Prod.mk.injEq] at h
      obtain ⟨-, h2⟩ := h
      subst h2
      refine ⟨?_, rfl, hstrat⟩
      match hfe : s.instances.filter (isEligible cfg), hsel' : hsel with
      | [], _ =>
          rw [hfe] at hsel
          simp [selectInstance] at hsel
      | e :: es, _ =>
          rw [hfe, hstrat] at hsel
          simp only [selectInstance, Except.ok.injEq, Prod.mk.injEq] at hsel
          simp only [← hsel.2, List.length_cons]
  · have hfilter : List.filter (isEligible cfg) [a, b] = [a, b] := by
      simp [List.filter, ha, hb]
    simp only [selections, getInstanceForConnection, hfilter]
    simp [selectInstance, hfilter]

/-- C4 witness: a concrete configuration and two fresh active instances for
which the cursor law holds and the four selections are A, B, A, B. -/
theorem c4_round_robin_witness :
    selections ⟨5, 10⟩ 4
        ⟨[⟨0, Status.active, ⟨none, none⟩, 0, 100⟩,
          ⟨1, Status.active, ⟨none, none⟩, 0, 200⟩], 2, 0, .roundRobin⟩ =
      [⟨0, Status.active, ⟨none, none⟩, 0, 100⟩,
       ⟨1, Status.active, ⟨none, none⟩, 0, 200⟩,
       ⟨0, Status.active, ⟨none, none⟩, 0, 100⟩,
       ⟨1, Status.active, ⟨none, none⟩, 0, 200⟩] :=
  (c4_round_robin ⟨5, 10⟩ ⟨0, Status.active, ⟨none, none⟩, 0, 100⟩
    ⟨1, Status.active, ⟨none, none⟩, 0, 200⟩ 2 (by decide) (by decide)).2

/-- Modelled from the spec: the registry state after k consecutive
`createInstance` calls starting from the empty registry (a failed call
leaves the state unchanged and the caller keeps going, as in the
integration test `should enforce max instances limit`). -/
def runCreates (cfg : RegistryConfig) (md : Metadata) : Nat → RegistryState
  | 0 => emptyRegistry
  | k + 1 =>
      match createInstance cfg (runCreates cfg md k) k md with
      | .ok (_, s) => s
      | .error _ => runCreates cfg md k

theorem runCreates_length (cfg : RegistryConfig) (md : Metadata) (k : Nat) :
    (runCreates cfg md k).instances.length = min k cfg.maxInstances := by
  induction k with
  | zero => simp [runCreates, emptyRegistry]
  | succ k ih =>
      rw [runCreates]
      unfold createInstance
      by_cases hfull : (runCreates cfg md k).instances.length = cfg.maxInstances
      · rw [if_pos hfull]
        show (runCreates cfg md k).instances.length = min (k + 1) cfg.maxInstances
        omega
      · rw [if_neg hfull]
        show ((runCreates cfg md k).instances ++
            [({ id := (runCreates cfg md k).nextId, status := .active, metadata := md,
                connections := 0, createdAt := k } : Instance)]).length =
          min (k + 1) cfg.maxInstances
        simp only [List.length_append, List.length_singleton]
        omega

/-- C1: with maxInstances = N, starting from the empty registry, each of the
first N `createInstance` calls succeeds with a new Instance of status active
and connections 0, call N+1 fails with CapacityExceeded, and the registry
never holds more than N instances at any point of the run. -/
theorem c1_create_instance_capacity (cfg : RegistryConfig) (md : Metadata)
    (N : Nat) (hN : cfg.maxInstances = N) :
    (∀ k, k < N → ∃ i s', createInstance cfg (runCreates cfg md k) k md = .ok (i, s') ∧
      i.status = .active ∧ i.connections = 0) ∧
    createInstance cfg (runCreates cfg md N) N md = .error .CapacityExceeded ∧
    (∀ k, (runCreates cfg md k).instances.length ≤ N) := by
  subst hN
  refine ⟨?_, ?_, ?_⟩
  · intro k hk
    have hlen := runCreates_length cfg md k
    unfold createInstance
    rw [if_neg (by omega)]
    exact ⟨_, _, rfl, rfl, rfl⟩
  · have hlen := runCreates_length cfg md cfg.maxInstances
    unfold createInstance
    rw [if_pos (by omega)]
  · intro k
    have hlen := runCreates_length cfg md k
    omega

/-- C1 witness: with maxInstances = 5, the third call succeeds with an
active zero-connection instance, the sixth call fails CapacityExceeded, and
the pool size stays within 5. -/
theorem c1_create_instance_capacity_witness :
    (∃ i s', createInstance ⟨5, 10⟩ (runCreates ⟨5, 10⟩ ⟨none, none⟩ 2) 2 ⟨none, none⟩ =
        .ok (i, s') ∧ i.status = .active ∧ i.connections = 0) ∧
    createInstance ⟨5, 10⟩ (runCreates ⟨5, 10⟩ ⟨none, none⟩ 5) 5 ⟨none, none⟩ =
      .error .CapacityExceeded ∧
    (runCreates ⟨5, 10⟩ ⟨none, none⟩ 7).instances.length ≤ 5 := by
  have h := c1_create_instance_capacity ⟨5, 10⟩ ⟨none, none⟩ 5 rfl
  exact ⟨h.1 2 (by decide), h.2.1, h.2.2 7⟩

/-! ## Session-store lemmas -/

/-- C5: `getSession(id)` returns a session only if one with that id is
stored and unexpired; it returns none when the session is missing or
expired, an expired session being treated as absent and lazily purged from
the store; in particular a session created with ttl = T and queried at any
time strictly after its creation time plus T returns none. -/
theorem c5_get_session_expiry (st : SessionStore) (instances : List Instance)
    (now sid : Nat) :
    (∀ s stOut, getSession st instances now sid = (some s, stOut) →
      ∃ s0, st.sessions.find? (fun t => t.id == sid) = some s0 ∧
        ¬ s0.expiresAt < now) ∧
    (st.sessions.find? (fun t => t.id == sid) = none →
      (getSession st instances now sid).1 = none) ∧
    (∀ s0, st.sessions.find? (fun t => t.id == sid) = some s0 →
      s0.expiresAt < now →
      (getSession st instances now sid).1 = none ∧
      (getSession st instances now sid).2.sessions.find?
        (fun t => t.id == sid) = none) ∧
    (∀ ttl now0 c now1, (∀ t ∈ st.sessions, ¬ t.id = st.nextSessionId) →
      now0 + ttl < now1 →
      (getSession (getOrCreateSession ttl st now0 c).2 instances now1
        (getOrCreateSession ttl st now0 c).1.id).1 = none) := by
  refine ⟨?_, ?_, ?_, ?_⟩
  · intro s stOut h
    unfold getSession at h
    split at h
    · simp at h
    · rename_i s0 hfind
      refine ⟨s0, hfind, ?_⟩
      split at h
      · simp at h
      · rename_i hexp
        exact hexp
  · intro hnone
    unfold getSession
    rw [hnone]
  · intro s0 hfind hexp
    unfold getSession
    simp only [hfind]
    rw [if_pos hexp]
    refine ⟨rfl, ?_⟩
    rw [List.find?_eq_none]
    intro t ht
    have := List.mem_filter.mp ht
    simp only [decide_not, Bool.not_eq_true', decide_eq_false_iff_not] at this
    simp [this.2]
  · intro ttl now0 c now1 hfresh hlate
    unfold getSession
    have hfind :
        ((getOrCreateSession ttl st now0 c).2.sessions.find?
          (fun t => t.id == (getOrCreateSession ttl st now0 c).1.id)) =
        some (getOrCreateSession ttl st now0 c).1 := by
      show ((st.sessions ++ [(getOrCreateSession ttl st now0 c).1]).find?
          (fun t => t.id == st.nextSessionId)) = _
      rw [List.find?_append]
      have h1 : st.sessions.find? (fun t => t.id == st.nextSessionId) = none := by
        rw [List.find?_eq_none]
        intro t ht
        simp only [beq_eq_false_iff_ne, ne_eq, Bool.not_eq_true]
        simp [hfresh t ht]
      rw [h1]
      simp [getOrCreateSession]
    simp only [hfind]
    rw [if_pos (by show now0 + ttl < now1; exact hlate)]

/-- C5 witness: a session created at time 0 with ttl 3, queried at time 4,
is gone; and a lookup in the empty store is none. -/
theorem c5_get_session_expiry_witness :
    (getSession (getOrCreateSession 3 emptyStore 0 ⟨"u", none⟩).2 [] 4
      (getOrCreateSession 3 emptyStore 0 ⟨"u", none⟩).1.id).1 = none ∧
    (getSession emptyStore [] 5 0).1 = none := by
  have h := c5_get_session_expiry emptyStore [] 5 0
  have h4 := (c5_get_session_expiry emptyStore [] 4 0).2.2.2 3 0 ⟨"u", none⟩ 4
    (by simp [emptyStore]) (by decide)
  exact ⟨h4, h.2.1 rfl⟩

/-- C6 counterexample: at the second of two identical `getOrCreateSession`
calls for userId "user1" an unexpired session for those claims already
exists, yet a second, distinct session is created — `getUserSessions` then
holds two sessions, as the integration test `should track user sessions`
requires. -/
theorem c6_counterexample :
    ((getOrCreateSession 60000 emptyStore 100 ⟨"user1", none⟩).1.userId = "user1" ∧
     ¬ (getOrCreateSession 60000 emptyStore 100 ⟨"user1", none⟩).1.expiresAt < 200) ∧
    ¬ (getOrCreateSession 60000
        (getOrCreateSession 60000 emptyStore 100 ⟨"user1", none⟩).2 200
        ⟨"user1", none⟩).1.id =
      (getOrCreateSession 60000 emptyStore 100 ⟨"user1", none⟩).1.id ∧
    (getUserSessions (getOrCreateSession 60000
        (getOrCreateSession 60000 emptyStore 100 ⟨"user1", none⟩).2 200
        ⟨"user1", none⟩).2 200 "user1").length = 2 := by
  decide

/-- C6 (amended): `getOrCreateSession(claims)` creates a fresh session on
every call — with the claims' userId and organizationId, no connections, no
sticky instance, and expiresAt = now + ttl, appended to the store — and
never reuses an existing session, so repeated calls for the same user
accumulate multiple concurrent sessions. -/
theorem c6_get_or_create_session_always_creates (ttl : Nat) (st : SessionStore)
    (now : Nat) (c : Claims) :
    (getOrCreateSession ttl st now c).1.expiresAt = now + ttl ∧
    (getOrCreateSession ttl st now c).1.userId = c.userId ∧
    (getOrCreateSession ttl st now c).1.organizationId = c.organizationId ∧
    (getOrCreateSession ttl st now c).1.connections = [] ∧
    (getOrCreateSession ttl st now c).1.stickyInstance = none ∧
    (getOrCreateSession ttl st now c).1.id = st.nextSessionId ∧
    (getOrCreateSession ttl st now c).2.sessions =
      st.sessions ++ [(getOrCreateSession ttl st now c).1] :=
  ⟨rfl, rfl, rfl, rfl, rfl, rfl, rfl⟩

/-- C7: after `setStickyInstance(sessionId, instanceId)` on a stored,
unexpired session, `getSession` returns the session with
metadata.stickyInstance = instanceId for as long as that instance is live
(non-error, non-removed); once the instance is no longer live the sticky
reference is lazily cleared rather than returned pointing at a dead
instance. -/
theorem c7_sticky_instance (st : SessionStore) (instances : List Instance)
    (now sid iid : Nat) (s0 : Session)
    (hfind : st.sessions.find? (fun t => t.id == sid) = some s0)
    (hexp : ¬ s0.expiresAt < now) :
    (liveInstance instances iid = true →
      ∃ s stOut, getSession (setStickyInstance st sid iid) instances now sid =
        (some s, stOut) ∧ s.stickyInstance = some iid) ∧
    (liveInstance instances iid = false →
      ∃ s stOut, getSession (setStickyInstance st sid iid) instances now sid =
        (some s, stOut) ∧ s.stickyInstance = none) := by
  have hid : s0.id = sid := by
    have := List.find?_some hfind
    simpa using this
  have hfind' :
      (setStickyInstance st sid iid).sessions.find? (fun t => t.id == sid) =
      some { s0 with stickyInstance := some iid } := by
    show (st.sessions.map (fun s =>
        if s.id = sid then { s with stickyInstance := some iid } else s)).find?
      (fun t => t.id == sid) = _
    rw [List.find?_map]
    have hcomp : ((fun t : Session => t.id == sid) ∘
        (fun s => if s.id = sid then { s with stickyInstance := some iid } else s)) =
        fun t : Session => t.id == sid := by
      funext t
      by_cases h : t.id = sid <;> simp [h]
    rw [hcomp, hfind]
    simp [Option.map, hid]
  constructor
  · intro hlive
    unfold getSession
    simp only [hfind']
    rw [if_neg (by simpa using hexp)]
    simp only [hlive, if_true]
    exact ⟨_, _, rfl, rfl⟩
  · intro hdead
    unfold getSession
    simp only [hfind']
    rw [if_neg (by simpa using hexp)]
    simp only [hdead, Bool.false_eq_true, if_false]
    exact ⟨_, _, rfl, rfl⟩

/-- C7 witness: a concrete store with one session and one active instance —
the sticky reference is visible while the instance is live, and cleared once
the instance pool no longer holds it. -/
theorem c7_sticky_instance_witness :
    (∃ s stOut, getSession
        (setStickyInstance (getOrCreateSession 60000 emptyStore 100 ⟨"u", none⟩).2 0 7)
        [⟨7, Status.active, ⟨none, none⟩, 0, 50⟩] 200 0 = (some s, stOut) ∧
      s.stickyInstance = some 7) ∧
    (∃ s stOut, getSession
        (setStickyInstance (getOrCreateSession 60000 emptyStore 100 ⟨"u", none⟩).2 0 7)
        [] 200 0 = (some s, stOut) ∧
      s.stickyInstance = none) := by
  have h := c7_sticky_instance
    (getOrCreateSession 60000 emptyStore 100 ⟨"u", none⟩).2
    [⟨7, Status.active, ⟨none, none⟩, 0, 50⟩] 200 0 7
    (getOrCreateSession 60000 emptyStore 100 ⟨"u", none⟩).1 (by rfl) (by decide)
  have h' := c7_sticky_instance
    (getOrCreateSession 60000 emptyStore 100 ⟨"u", none⟩).2
    [] 200 0 7
    (getOrCreateSession 60000 emptyStore 100 ⟨"u", none⟩).1 (by rfl) (by decide)
  exact ⟨h.1 (by decide), h'.2 (by decide)⟩

/-! ## Router accounting lemmas -/

theorem countConns_append (l₁ l₂ : List (Nat × Nat)) (iid : Nat) :
    countConns (l₁ ++ l₂) iid = countConns l₁ iid + countConns l₂ iid :=
  List.countP_append _ _ _

theorem countP_filter_key (cid : Nat) (c : Nat × Nat) (p : Nat × Nat → Bool) :
    ∀ l : List (Nat × Nat), (l.map Prod.fst).Nodup → c ∈ l → c.1 = cid →
      (l.filter (fun d => ¬ d.1 = cid)).countP p + (if p c then 1 else 0) =
        l.countP p := by
  intro l
  induction l with
  | nil => intro _ hmem; simp at hmem
  | cons hd t ih =>
      intro hnd hmem hc
      simp only [List.map_cons, List.nodup_cons] at hnd
      rcases List.mem_cons.mp hmem with heq | hmem'
      · subst heq
        rw [List.filter_cons_of_neg (by simp [hc])]
        have hkeep : t.filter (fun d => ¬ d.1 = cid) = t := by
          rw [List.filter_eq_self]
          intro d hdt
          simp only [decide_not, Bool.not_eq_true', decide_eq_false_iff_not]
          intro he
          apply hnd.1
          have hmm : d.1 ∈ t.map Prod.fst := List.mem_map_of_mem Prod.fst hdt
          rwa [he, ← hc] at hmm
        rw [hkeep, List.countP_cons]
      · have hhd : ¬ hd.1 = cid := by
          intro he
          exact hnd.1 (by
            rw [he, ← hc]
            exact List.mem_map_of_mem Prod.fst hmem')
        rw [List.filter_cons_of_pos (by simp [hhd])]
        rw [List.countP_cons, List.countP_cons]
        have := ih hnd.2 hmem' hc
        omega

/-- Modelled from the spec: the conservation invariant of the connection
accounting — each pooled instance's counter equals the number of live
connections currently routed to it, instance ids and live-connection
references stay below the id allocator, connection ids stay below the
connection-id allocator, and connection ids are unique. -/
def RouterInv (s : RouterState) : Prop :=
  (∀ i ∈ s.reg.instances, i.connections = (countConns s.liveConns i.id : Int)) ∧
  (∀ i ∈ s.reg.instances, i.id < s.reg.nextId) ∧
  (∀ c ∈ s.liveConns, c.2 < s.reg.nextId) ∧
  (∀ c ∈ s.liveConns, c.1 < s.nextConnId) ∧
  (s.liveConns.map Prod.fst).Nodup

theorem routerStep_inv (cfg : RegistryConfig) (op : RouterOp) (s : RouterState)
    (h : RouterInv s) : RouterInv (routerStep cfg op s) := by
  obtain ⟨hcnt, hids, hconn, hcid, hnd⟩ := h
  cases op with
  | create now md =>
      simp only [routerStep]
      split
      · rename_i i r hok
        unfold createInstance at hok
        split at hok
        · simp at hok
        · rename_i hnotfull
          simp only [Except.ok.injEq, Prod.mk.injEq] at hok
          obtain ⟨-, hr⟩ := hok
          subst hr
          refine ⟨?_, ?_, ?_, hcid, hnd⟩
          · intro j hj
            simp only [List.mem_append, List.mem_singleton] at hj
            rcases hj with hj | hj
            · exact hcnt j hj
            · subst hj
              show (0 : Int) = _
              have hzero : countConns s.liveConns s.reg.nextId = 0 := by
                rw [countConns, List.countP_eq_zero]
                intro d hd
                have := hconn d hd
                simp only [beq_iff_eq, Bool.not_eq_true']
                simp only [beq_eq_false_iff_ne, ne_eq]
                omega
              rw [hzero]
              rfl
          · intro j hj
            simp only [List.mem_append, List.mem_singleton] at hj
            rcases hj with hj | hj
            · have := hids j hj
              simp only
              omega
            · subst hj
              simp only
              omega
          · intro d hd
            have := hconn d hd
            simp only
            omega
      · exact ⟨hcnt, hids, hconn, hcid, hnd⟩
  | remove iid =>
      simp only [routerStep]
      unfold removeInstance
      refine ⟨?_, ?_, ?_, hcid, hnd⟩
      · intro j hj
        exact hcnt j (List.mem_filter.mp hj).1
      · intro j hj
        exact hids j (List.mem_filter.mp hj).1
      · exact hconn
  | fail iid =>
      simp only [routerStep]
      unfold markError
      refine ⟨?_, ?_, ?_, hcid, hnd⟩
      · intro j hj
        obtain ⟨j0, hj0, hj0j⟩ := List.mem_map.mp hj
        have hcnt0 := hcnt j0 hj0
        have hsame : j.connections = j0.connections ∧ j.id = j0.id := by
          rw [← hj0j]
          by_cases hcase : j0.id = iid <;> simp [hcase]
        rw [hsame.1, hsame.2]
        exact hcnt0
      · intro j hj
        obtain ⟨j0, hj0, hj0j⟩ := List.mem_map.mp hj
        have hsame : j.id = j0.id := by
          rw [← hj0j]
          by_cases hcase : j0.id = iid <;> simp [hcase]
        rw [hsame]
        exact hids j0 hj0
      · exact hconn
  | route =>
      simp only [routerStep]
      split
      · rename_i i r hok
        obtain ⟨hmem, -, hinst, hnid⟩ := getInstanceForConnection_ok hok
        unfold incConnections
        refine ⟨?_, ?_, ?_, ?_, ?_⟩
        · intro j hj
          simp only at hj ⊢
          rw [hinst] at hj
          obtain ⟨j0, hj0, hj0j⟩ := List.mem_map.mp hj
          have hcnt0 := hcnt j0 hj0
          rw [countConns_append]
          by_cases hcase : j0.id = i.id
          · have hj0j' : j = { j0 with connections := j0.connections + 1 } := by
              rw [← hj0j, if_pos hcase]
            have hone : countConns [(s.nextConnId, i.id)] j.id = 1 := by
              rw [hj0j']
              simp only [countConns, List.countP_cons, List.countP_nil]
              simp [hcase]
            rw [hone, hj0j']
            show j0.connections + 1 =
              ((countConns s.liveConns j0.id + 1 : Nat) : Int)
            rw [hcnt0]
            push_cast
            ring
          · have hj0j' : j = j0 := by rw [← hj0j, if_neg hcase]
            have hne : ¬ i.id = j0.id := fun hh => hcase hh.symm
            have hzero : countConns [(s.nextConnId, i.id)] j.id = 0 := by
              rw [hj0j']
              simp only [countConns, List.countP_cons, List.countP_nil]
              simp [hne]
            rw [hzero, hj0j']
            show j0.connections =
              ((countConns s.liveConns j0.id + 0 : Nat) : Int)
            rw [hcnt0]
            push_cast
            ring
        · intro j hj
          simp only at hj ⊢
          rw [hinst] at hj
          obtain ⟨j0, hj0, hj0j⟩ := List.mem_map.mp hj
          have hsame : j.id = j0.id := by
            rw [← hj0j]
            by_cases hcase : j0.id = i.id <;> simp [hcase]
          rw [hsame, hnid]
          exact hids j0 hj0
        · intro d hd
          simp only [List.mem_append, List.mem_singleton] at hd
          rcases hd with hd | hd
          · have := hconn d hd
            simp only
            rw [hnid]
            exact this
          · subst hd
            simp only
            rw [hnid]
            exact hids i hmem
        · intro d hd
          simp only [List.mem_append, List.mem_singleton] at hd
          rcases hd with hd | hd
          · have := hcid d hd
            simp only
            omega
          · subst hd
            simp only
            omega
        · simp only [List.map_append]
          rw [List.nodup_append]
          refine ⟨hnd, by simp, ?_⟩
          intro x hx
          obtain ⟨d, hd, hdx⟩ := List.mem_map.mp hx
          have := hcid d hd
          simp only [List.map_cons, List.map_nil, List.mem_singleton]
          omega
      · exact ⟨hcnt, hids, hconn, hcid, hnd⟩
  | close cid =>
      simp only [routerStep]
      split
      · rename_i c hfind
        have hcmem : c ∈ s.liveConns := List.mem_of_find?_eq_some hfind
        have hckey : c.1 = cid := by
          have := List.find?_some hfind
          simpa using this
        unfold decConnections
        refine ⟨?_, ?_, ?_, ?_, ?_⟩
        · intro j hj
          simp only at hj ⊢
          obtain ⟨j0, hj0, hj0j⟩ := List.mem_map.mp hj
          have hcnt0 := hcnt j0 hj0
          have hkey : (s.liveConns.filter (fun d => ¬ d.1 = cid)).countP
                (fun d => d.2 == j0.id) + (if c.2 == j0.id then 1 else 0) =
              s.liveConns.countP (fun d => d.2 == j0.id) :=
            countP_filter_key cid c (fun d => d.2 == j0.id)
              s.liveConns hnd hcmem hckey
          by_cases hcase : j0.id = c.2
          · have hj0j' : j = { j0 with connections := j0.connections - 1 } := by
              rw [← hj0j, if_pos hcase]
            have hone : (if c.2 == j0.id then 1 else 0) = 1 := by simp [hcase]
            rw [hone] at hkey
            rw [hj0j']
            show j0.connections - 1 =
              ((countConns (s.liveConns.filter (fun d => ¬ d.1 = cid)) j0.id : Nat) : Int)
            rw [hcnt0]
            unfold countConns
            omega
          · have hj0j' : j = j0 := by rw [← hj0j, if_neg hcase]
            have hne : ¬ c.2 = j0.id := fun hh => hcase hh.symm
            have hzero : (if c.2 == j0.id then 1 else 0) = 0 := by simp [hne]
            rw [hzero] at hkey
            rw [hj0j', hcnt0]
            unfold countConns
            omega
        · intro j hj
          simp only at hj ⊢
          obtain ⟨j0, hj0, hj0j⟩ := List.mem_map.mp hj
          have hsame : j.id = j0.id := by
            rw [← hj0j]
            by_cases hcase : j0.id = c.2 <;> simp [hcase]
          rw [hsame]
          exact hids j0 hj0
        · intro d hd
          exact hconn d (List.mem_filter.mp hd).1
        · intro d hd
          exact hcid d (List.mem_filter.mp hd).1
        · exact List.Nodup.sublist
            (List.Sublist.map Prod.fst (List.filter_sublist _)) hnd
      · exact ⟨hcnt, hids, hconn, hcid, hnd⟩

theorem runRouter_inv (cfg : RegistryConfig) (ops : List RouterOp) :
    RouterInv (runRouter cfg ops) := by
  induction ops with
  | nil =>
      refine ⟨?_, ?_, ?_, ?_, ?_⟩ <;>
        simp [runRouter, emptyRouter, emptyRegistry, RouterInv]
  | cons op ops ih => exact routerStep_inv cfg op _ ih

/-- C8: in every state reachable by a sequence of registry and router
operations from the initial state, each Instance.connections counter is
non-negative — it equals the number of live connections currently routed to
that instance, so each routing increment is matched by exactly one close
decrement — and closing the same connection twice equals closing it once
(the decrement applies at most once per connection, even under duplicate
close or retry events). -/
theorem c8_connection_accounting (cfg : RegistryConfig) (ops : List RouterOp) :
    (∀ i ∈ (runRouter cfg ops).reg.instances,
      0 ≤ i.connections ∧
      i.connections = (countConns (runRouter cfg ops).liveConns i.id : Int)) ∧
    (∀ t cid, routerStep cfg (.close cid) (routerStep cfg (.close cid) t) =
      routerStep cfg (.close cid) t) := by
  constructor
  · intro i hi
    have h := (runRouter_inv cfg ops).1 i hi
    refine ⟨?_, h⟩
    rw [h]
    exact Int.natCast_nonneg _
  · intro t cid
    rcases hf : t.liveConns.find? (fun c => c.1 == cid) with - | c
    · have h1 : routerStep cfg (.close cid) t = t := by
        simp only [routerStep, hf]
      rw [h1, h1]
    · have h1 : routerStep cfg (.close cid) t =
          { t with
            reg := decConnections t.reg c.2
            liveConns := t.liveConns.filter (fun d => ¬ d.1 = cid) } := by
        simp only [routerStep, hf]
      rw [h1]
      have h2 : ((t.liveConns.filter (fun d => ¬ d.1 = cid)).find?
          (fun c => c.1 == cid)) = none := by
        rw [List.find?_eq_none]
        intro d hd
        have := (List.mem_filter.mp hd).2
        simp only [decide_not, Bool.not_eq_true', decide_eq_false_iff_not] at this
        simp [this]
      simp only [routerStep, h2]

/-- C8 witness: after creating one instance and routing one connection to
it, the instance's counter is 1 = the one live connection; and the double
close of that connection equals the single close. -/
theorem c8_connection_accounting_witness :
    ((0 : Int) ≤
        ({ id := 0, status := Status.active, metadata := ⟨none, none⟩,
           connections := 1, createdAt := 3 } : Instance).connections ∧
      ({ id := 0, status := Status.active, metadata := ⟨none, none⟩,
         connections := 1, createdAt := 3 } : Instance).connections =
        (countConns (runRouter ⟨5, 10⟩
          [RouterOp.route, RouterOp.create 3 ⟨none, none⟩]).liveConns 0 : Int)) ∧
    routerStep ⟨5, 10⟩ (.close 0) (routerStep ⟨5, 10⟩ (.close 0)
        (runRouter ⟨5, 10⟩ [RouterOp.route, RouterOp.create 3 ⟨none, none⟩])) =
      routerStep ⟨5, 10⟩ (.close 0)
        (runRouter ⟨5, 10⟩ [RouterOp.route, RouterOp.create 3 ⟨none, none⟩]) := by
  have h := c8_connection_accounting ⟨5, 10⟩
    [RouterOp.route, RouterOp.create 3 ⟨none, none⟩]
  exact ⟨h.1 _ (by decide), h.2 _ 0⟩

/-- C9: for every vector-store state, query and filter, `searchSimilarRules`
returns at most 5 results; it returns the empty list (rather than an error)
when the vector store is uninitialized or the underlying similarity search
throws; and the POST /api/rules/search response therefore never reports a
count above 5. -/
theorem c9_search_similar_rules_bounded (vs : VectorStoreState) (q : String)
    (f : SearchFilter) (r : SearchRequest) :
    (searchSimilarRules vs q f).length ≤ 5 ∧
    (vs = .uninitialized → searchSimilarRules vs q f = []) ∧
    (∀ m, searchSimilarRules (.failing m) q f = []) ∧
    (searchRules vs r).count ≤ 5 ∧
    (searchRules vs r).results.length ≤ 5 := by
  have hlen : ∀ (vs' : VectorStoreState) (q' : String) (f' : SearchFilter),
      (searchSimilarRules vs' q' f').length ≤ 5 := by
    intro vs' q' f'
    cases vs' with
    | uninitialized => simp [searchSimilarRules]
    | failing m => simp [searchSimilarRules]
    | ready docs =>
        simp only [searchSimilarRules, similaritySearch, List.length_map]
        have := List.length_take 5 (docs.filter (matchesFilter f'))
        omega
  refine ⟨hlen vs q f, ?_, ?_, hlen vs _ _, hlen vs _ _⟩
  · intro hvs
    subst hvs
    rfl
  · intro m
    rfl

/-- C9 witness: an uninitialized store yields no results, a failing search
yields no results, and a 7-document store still reports at most 5. -/
theorem c9_search_similar_rules_bounded_witness :
    (searchSimilarRules .uninitialized "q" ⟨none, none, none⟩ = [] ∧
      searchSimilarRules (.failing "boom") "q" ⟨none, none, none⟩ = []) ∧
    (searchRules (.ready (List.replicate 7 ⟨"c", "cursor", "react", "core", "p"⟩))
      ⟨"q", none, none, none⟩).count ≤ 5 := by
  have h := c9_search_similar_rules_bounded .uninitialized "q" ⟨none, none, none⟩
    ⟨"q", none, none, none⟩
  have h' := c9_search_similar_rules_bounded
    (.ready (List.replicate 7 ⟨"c", "cursor", "react", "core", "p"⟩)) "q"
    ⟨none, none, none⟩ ⟨"q", none, none, none⟩
  exact ⟨⟨h.2.1 rfl, h.2.2.1 "boom"⟩, h'.2.2.2.1⟩

/-- C10: every rules-package ZIP produced by `generateRulesPackage` contains
a README.md entry and an INSTALL.md entry, for every request body —
whatever subset of cursor/cline/roo the ide selection includes (possibly
none) and whether or not a framework is specified or its path exists. -/
theorem c10_package_always_has_readme_and_install (nowIso : String)
    (frameworkExists : String → Bool) (req : PackageRequest) :
    ZipEntry.file (generateReadme nowIso req) "README.md" ∈
      generateRulesPackage nowIso frameworkExists req ∧
    ZipEntry.file (generateInstallationInstructions req) "INSTALL.md" ∈
      generateRulesPackage nowIso frameworkExists req := by
  constructor <;>
    · unfold generateRulesPackage
      simp [List.mem_append]

end Mirg
